import Mathlib

/-!
Verification of the restorable-image subsystem of the ebiten fork
(internal/restorable/image.go, internal/restorable/images.go) and of the
vector-path Bézier flattening (vector/path.go), as a shallow embedding.

Machine integers of the source (Go `int`) are modelled as `Int`; overflow is
irrelevant at the sizes involved. Go's `image.Rectangle` / `image.Point` are
translated field by field, including Go's treatment of empty rectangles in
`Rectangle.In` and the min/max normalisation in `image.Rect`.
-/

namespace Restorable

/-- Go `image.Point`: an integer pair. -/
structure Point where
  x : Int
  y : Int
deriving DecidableEq, Repr

/-- Go `image.Rectangle`: half-open rectangle with min (inclusive) and max
(exclusive) corners. -/
structure Rectangle where
  min : Point
  max : Point
deriving DecidableEq, Repr

/-- Go `Rectangle.Dx`: the width `Max.X - Min.X`. -/
def Rectangle.dx (r : Rectangle) : Int := r.max.x - r.min.x

/-- Go `Rectangle.Dy`: the height `Max.Y - Min.Y`. -/
def Rectangle.dy (r : Rectangle) : Int := r.max.y - r.min.y

/-- Go `Rectangle.Empty`: true when the rectangle contains no points. -/
def Rectangle.isEmpty (r : Rectangle) : Bool :=
  r.min.x ≥ r.max.x || r.min.y ≥ r.max.y

/-- Go `Rectangle.In(s)`: whether every point of `r` is in `s`.
An empty rectangle is in every rectangle. -/
def Rectangle.In (r s : Rectangle) : Bool :=
  if r.isEmpty then true
  else
    s.min.x ≤ r.min.x && r.max.x ≤ s.max.x &&
    s.min.y ≤ r.min.y && r.max.y ≤ s.max.y

/-- Go `image.Rect(x0, y0, x1, y1)`: builds a rectangle, swapping the
coordinates when they are given in the wrong order. -/
def goRect (x0 y0 x1 y1 : Int) : Rectangle :=
  let p := if x0 > x1 then (x1, x0) else (x0, x1)
  let q := if y0 > y1 then (y1, y0) else (y0, y1)
  ⟨⟨p.1, q.1⟩, ⟨p.2, q.2⟩⟩

/-- First loop of `appendRegionRemovingDuplicates`: does any region of the
list already fully contain `region`? -/
def containsRegion : List Rectangle → Rectangle → Bool
  | [], _ => false
  | r :: rest, region => region.In r || containsRegion rest region

/-- Second loop of `appendRegionRemovingDuplicates`: keep, in order, the
regions not fully contained in `region`. -/
def compactRegions : List Rectangle → Rectangle → List Rectangle
  | [], _ => []
  | r :: rest, region =>
    if r.In region then compactRegions rest region
    else r :: compactRegions rest region

/-- Go `appendRegionRemovingDuplicates(regions, region)` from
internal/restorable/image.go: if the new region is fully contained in a
pre-existing one, the list is unchanged; otherwise the pre-existing regions
fully contained in the new one are dropped (keeping order) and the new
region is appended at the end. -/
def appendRegionRemovingDuplicates (regions : List Rectangle) (region : Rectangle) :
    List Rectangle :=
  if containsRegion regions region then regions
  else compactRegions regions region ++ [region]

/-- RGBA byte buffer (`graphics.ManagedBytes`); its contents are opaque to
the restorable layer. -/
abbrev ManagedBytes := List Nat

/-- One record of `pixelsRecords`: a byte buffer for one region. -/
structure PixelRecord where
  pix : ManagedBytes
  region : Rectangle
deriving DecidableEq, Repr

/-- The record list behind `Pixels` (internal/restorable/pixelsrecords.go,
not among the sources here; only its container `Pixels` is). -/
structure PixelsRecords where
  records : List PixelRecord
deriving DecidableEq, Repr

/-- Modelled from the spec: `pixelsRecords.addOrReplace` lives in
internal/restorable/pixelsrecords.go, which is missing from the sources.
Per spec §4.1/§3 it inserts the (buffer, region) record with
duplicate-elimination: no-op when the region is already fully contained in a
recorded one, and recorded regions fully contained in the new region are
removed before the new record is appended. -/
def PixelsRecords.addOrReplace (p : PixelsRecords) (pix : ManagedBytes)
    (region : Rectangle) : PixelsRecords :=
  if p.records.any (fun r => region.In r.region) then p
  else ⟨p.records.filter (fun r => !(r.region.In region)) ++ [⟨pix, region⟩]⟩

/-- Modelled from the spec: `pixelsRecords.clear` (missing source file)
removes the record keyed by an exactly equal region, if any. -/
def PixelsRecords.clearRegion (p : PixelsRecords) (region : Rectangle) :
    PixelsRecords :=
  ⟨p.records.filter (fun r => r.region ≠ region)⟩

/-- `Pixels` from image.go: a lazily allocated record list
(`pixelsRecords == nil` until first use). -/
structure Pixels where
  pixelsRecords : Option PixelsRecords
deriving DecidableEq, Repr

/-- Go `Pixels.AddOrReplace` (image.go): allocates the record list on first
use, then delegates to `addOrReplace`. -/
def Pixels.AddOrReplace (p : Pixels) (pix : ManagedBytes) (region : Rectangle) :
    Pixels :=
  match p.pixelsRecords with
  | none => ⟨some (PixelsRecords.addOrReplace ⟨[]⟩ pix region)⟩
  | some pr => ⟨some (pr.addOrReplace pix region)⟩

/-- Go `Pixels.Clear` (image.go): no-op when no record list exists. -/
def Pixels.Clear (p : Pixels) (region : Rectangle) : Pixels :=
  match p.pixelsRecords with
  | none => p
  | some pr => ⟨some (pr.clearRegion region)⟩

/-- Go `ImageType` (image.go). -/
inductive ImageType where
  | regular
  | screen
  | volatile
deriving DecidableEq, Repr

/-- Blend modes used by the restorable layer (graphicsdriver.Blend values
that appear in image.go). -/
inductive Blend where
  | copy
  | clearBlend
  | srcOver
deriving DecidableEq, Repr

/-- Fill rules (graphicsdriver.FillRule). -/
inductive FillRule where
  | fillAll
  | nonZero
  | evenOdd
deriving DecidableEq, Repr

/-- Commands forwarded to the underlying graphicscommand layer (the command
queue), identified by native image handles. -/
inductive GCommand where
  | newImage (width height : Int) (screen : Bool)
  | writePixels (handle : Nat) (pix : ManagedBytes) (region : Rectangle)
  | drawTriangles (dst : Nat) (srcs : List (Option Nat)) (vertices : List Rat)
      (indices : List Nat) (blend : Blend) (dstRegion : Rectangle)
      (shader : Nat) (fillRule : FillRule)
  | disposeImage (handle : Nat)
deriving DecidableEq, Repr

/-- Shader handle of `clearShader` (shader.go, external to image.go). -/
def clearShaderId : Nat := 0

/-- Shader handle of `NearestFilterShader`. -/
def nearestFilterShaderId : Nat := 1

/-- Modelled from the spec: `graphics.QuadVerticesFromDstAndSrc`
(internal/graphics, not among the sources) fills 4 vertices of 8 floats each
(dst x/y, src x/y, RGBA color) for the quad dst (dx0,dy0)-(dx1,dy1) and
src (sx0,sy0)-(sx1,sy1); float32 values are modelled as rationals. -/
def quadVerticesFromDstAndSrc (dx0 dy0 dx1 dy1 sx0 sy0 sx1 sy1 cr cg cb ca : Rat) :
    List Rat :=
  [dx0, dy0, sx0, sy0, cr, cg, cb, ca,
   dx1, dy0, sx1, sy0, cr, cg, cb, ca,
   dx0, dy1, sx0, sy1, cr, cg, cb, ca,
   dx1, dy1, sx1, sy1, cr, cg, cb, ca]

/-- `graphics.QuadIndices()`: the two triangles of a quad. -/
def quadIndices : List Nat := [0, 1, 2, 1, 2, 3]

/-- The Go zero value `image.Rectangle\x7b\x7d`. -/
def zeroRect : Rectangle := ⟨⟨0, 0⟩, ⟨0, 0⟩⟩

/-- Modelled from the spec: `graphicscommand.Image.InternalSize` is the
backend-padded allocation size (external collaborator detail, §6); no claim
depends on the padding, so it is modelled as the logical size. -/
def internalSize (w h : Int) : Int × Int := (w, h)

/-- A restorable `Image` (image.go). The `pixelsCache`/`regionsCache`
fields of the source are allocation caches with no semantic content and are
not modelled. `image` is the native graphicscommand handle. -/
structure Image where
  image : Nat
  width : Int
  height : Int
  basePixels : Pixels
  stale : Bool
  staleRegions : List Rectangle
  imageType : ImageType
deriving DecidableEq, Repr

/-- Go `Image.makeStale(rect)` (image.go, lines 187-190): sets the stale
flag; the `rect` argument is accepted and ignored by the body. -/
def Image.makeStale (i : Image) (rect : Rectangle) : Image :=
  { i with stale := true }

/-- Go `Image.needsRestoring`. -/
def Image.needsRestoring (i : Image) : Bool :=
  i.imageType == ImageType.regular

/-- Go `Image.dependsOn(target)`: the baseline always reports no
dependency. -/
def Image.dependsOn (i : Image) (target : Nat) : Bool := false

/-- Go `Image.dependsOnShader(shader)`. -/
def Image.dependsOnShader (i : Image) (shader : Nat) : Bool := false

/-- Go `Image.makeStaleIfDependingOn(target)` (image.go). -/
def Image.makeStaleIfDependingOn (i : Image) (target : Nat) : Image :=
  if i.stale then i
  else if i.dependsOn target then i.makeStale zeroRect
  else i

/-- The process-wide state: `theImages` registry (images.go), the
`graphicsDriverInitialized` flag, a native-handle counter, and the stream of
commands forwarded to the graphicscommand layer. Registered images are keyed
by their native handle (pointer identity in Go). -/
structure World where
  driverInitialized : Bool
  images : List (Nat × Image)
  lastTarget : Option Nat
  nextId : Nat
  commands : List GCommand
deriving DecidableEq, Repr

/-- Registry lookup by image id (pointer dereference in Go). -/
def World.getImage (w : World) (id : Nat) : Option Image :=
  (w.images.find? (fun p => p.1 == id)).map Prod.snd

/-- Registry update by image id (in-place mutation through the pointer in
Go). -/
def World.setImage (w : World) (id : Nat) (img : Image) : World :=
  { w with images := w.images.map (fun p => if p.1 == id then (id, img) else p) }

/-- Go `images.makeStaleIfDependingOn(target)` (images.go): short-circuits
on the `lastTarget` memo, otherwise records the memo and scans every
registered image. The source's nil-pointer panic cannot arise here: ids
stand for valid pointers. -/
def World.makeStaleIfDependingOn (w : World) (target : Nat) : World :=
  if w.lastTarget == some target then w
  else
    { w with lastTarget := some target,
             images := w.images.map (fun p => (p.1, p.2.makeStaleIfDependingOn target)) }

/-- The single graphicscommand draw emitted by `clearImage` (image.go):
a quad draw with the clear blend and the clear shader over `region`. -/
def clearCommand (handle : Nat) (region : Rectangle) : GCommand :=
  GCommand.drawTriangles handle [none, none, none, none]
    (quadVerticesFromDstAndSrc (region.min.x : Rat) (region.min.y : Rat)
      (region.max.x : Rat) (region.max.y : Rat) 0 0 0 0 0 0 0 0)
    quadIndices Blend.clearBlend region clearShaderId FillRule.fillAll

/-- Go `clearImage(i, region)` (image.go): forwards the clear draw to the
command layer. -/
def clearImageOn (w : World) (handle : Nat) (region : Rectangle) : World :=
  { w with commands := w.commands ++ [clearCommand handle region] }

/-- Go `NewImage(width, height, imageType)` (image.go): panics (`none`)
unless the graphics driver is initialized; creates the native image, clears
its full internal extent, and registers the restorable image. -/
def newImage (w : World) (width height : Int) (ty : ImageType) :
    Option (World × Nat) :=
  if !w.driverInitialized then none
  else
    let handle := w.nextId
    let img : Image :=
      { image := handle, width := width, height := height,
        basePixels := ⟨none⟩, stale := false, staleRegions := [],
        imageType := ty }
    let w1 := { w with nextId := w.nextId + 1,
                       commands := w.commands ++ [GCommand.newImage width height (ty == ImageType.screen)] }
    let sz := internalSize width height
    let w2 := clearImageOn w1 handle (goRect 0 0 sz.1 sz.2)
    some ({ w2 with images := w2.images ++ [(handle, img)] }, handle)

/-- Go `Image.WritePixels(pixels, region)` (image.go, lines 204-225):
panics (`none`) when the region has non-positive width or height or is not
inside the image bounds; otherwise scans the registry for dependents,
forwards the upload (or the clear, for nil pixels) to the command layer, and
finally calls `makeStale(region)` on the image. -/
def World.writePixels (w : World) (id : Nat) (pixels : Option ManagedBytes)
    (region : Rectangle) : Option World :=
  match w.getImage id with
  | none => none
  | some i =>
    if region.dx ≤ 0 ∨ region.dy ≤ 0 then none
    else if !(region.In (goRect 0 0 i.width i.height)) then none
    else
      let w1 := w.makeStaleIfDependingOn id
      let w2 :=
        match pixels with
        | some pix => { w1 with commands := w1.commands ++ [GCommand.writePixels i.image pix region] }
        | none => clearImageOn w1 i.image region
      match w2.getImage id with
      | none => none
      | some j => some (w2.setImage id (j.makeStale region))

/-- Go `Image.ClearPixels(region)` (image.go). -/
def World.clearPixels (w : World) (id : Nat) (region : Rectangle) : Option World :=
  w.writePixels id none region

/-- Go `Image.DrawTriangles(srcs, vertices, indices, blend, dstRegion,
srcRegions, shader, uniforms, fillRule)` (image.go, lines 239-256): returns
immediately when `vertices` is empty; otherwise scans the registry for
dependents, marks the image stale, and forwards the draw (with the src
native handles) to the command layer. -/
def World.drawTriangles (w : World) (id : Nat) (srcs : List (Option Nat))
    (vertices : List Rat) (indices : List Nat) (blend : Blend)
    (dstRegion : Rectangle) (srcRegions : List Rectangle) (shader : Nat)
    (uniforms : List Nat) (fillRule : FillRule) : World :=
  if vertices.length = 0 then w
  else
    let w1 := w.makeStaleIfDependingOn id
    match w1.getImage id with
    | none => w1
    | some i =>
      let w2 := w1.setImage id (i.makeStale dstRegion)
      let handles := srcs.map (fun o => o.bind (fun sid => (w2.getImage sid).map Image.image))
      { w2 with commands := w2.commands ++ [GCommand.drawTriangles i.image handles vertices indices blend dstRegion shader fillRule] }

/-- Go `images.remove(img)` (images.go): invalidate dependents first, then
delete from the registry. -/
def World.remove (w : World) (id : Nat) : World :=
  let w1 := w.makeStaleIfDependingOn id
  { w1 with images := w1.images.filter (fun p => !(p.1 == id)) }

/-- Go `Image.Dispose()` (image.go): unregister, dispose the native image,
drop the pixel records. The field resets on the disposed object are
unobservable once it has left the registry. -/
def World.dispose (w : World) (id : Nat) : World :=
  match w.getImage id with
  | none => w
  | some i =>
    let w1 := w.remove id
    { w1 with commands := w1.commands ++ [GCommand.disposeImage i.image] }

/-- Go `Image.Extend(width, height)` (image.go, lines 159-178): returns the
image itself when the current size already covers the requested size;
otherwise creates a new image of the same type, copies the old contents by a
full-internal-extent quad draw with the copy blend, and disposes the
original. -/
def World.extend (w : World) (id : Nat) (width height : Int) :
    Option (World × Nat) :=
  match w.getImage id with
  | none => none
  | some i =>
    if i.width ≥ width ∧ i.height ≥ height then some (w, id)
    else
      match newImage w width height i.imageType with
      | none => none
      | some (w1, nid) =>
        let sz := internalSize i.width i.height
        let vs := quadVerticesFromDstAndSrc 0 0 (sz.1 : Rat) (sz.2 : Rat)
          0 0 (sz.1 : Rat) (sz.2 : Rat) 1 1 1 1
        let dr := goRect 0 0 sz.1 sz.2
        let w2 := w1.drawTriangles nid [some id, none, none, none] vs
          quadIndices Blend.copy dr [zeroRect, zeroRect, zeroRect, zeroRect]
          nearestFilterShaderId [] FillRule.fillAll
        some (w2.dispose id, nid)

/-- Modelled from the spec: `pixelsRecords.apply` (missing source file)
replays each stored (region, buffer) pair in insertion order as one
pixel-upload command per record (§4.1). `Pixels.Apply` itself (image.go)
adds only the nil check. -/
def Pixels.applyCommands (p : Pixels) (handle : Nat) : List GCommand :=
  match p.pixelsRecords with
  | none => []
  | some pr => pr.records.map (fun r => GCommand.writePixels handle r.pix r.region)

/-- Go `Image.restore(graphicsDriver)` (image.go, lines 314-350), as a
state transition of the image together with the commands it forwards.
`newHandle` stands for the freshly created native image. Screen: recreate
and drop records, clear staleness. Volatile: recreate and clear, leaving
`stale`, `staleRegions` and `basePixels` untouched. Regular: panics
(`none`) when stale; otherwise recreate, clear the internal extent, replay
the records, and clear staleness. -/
def Image.restore (i : Image) (newHandle : Nat) : Option (Image × List GCommand) :=
  match i.imageType with
  | ImageType.screen =>
    some ({ i with image := newHandle, basePixels := ⟨none⟩, stale := false,
                   staleRegions := [] },
          [GCommand.newImage i.width i.height true])
  | ImageType.volatile =>
    let sz := internalSize i.width i.height
    some ({ i with image := newHandle },
          [GCommand.newImage i.width i.height false,
           clearCommand newHandle (goRect 0 0 sz.1 sz.2)])
  | ImageType.regular =>
    if i.stale then none
    else
      let sz := internalSize i.width i.height
      some ({ i with image := newHandle, stale := false, staleRegions := [] },
            [GCommand.newImage i.width i.height false,
             clearCommand newHandle (goRect 0 0 sz.1 sz.2)] ++
            i.basePixels.applyCommands newHandle)

end Restorable

namespace VectorPath

/-- `point` from vector/path.go; float32 coordinates modelled as rationals. -/
structure VPoint where
  x : Rat
  y : Rat
deriving DecidableEq, Repr

/-- `Path` from vector/path.go: segments plus the current position. -/
structure VPath where
  segs : List (List VPoint)
  cur : VPoint
deriving DecidableEq, Repr

/-- Go `Path.MoveTo(x, y)` (vector/path.go). -/
def VPath.moveTo (p : VPath) (x y : Rat) : VPath :=
  { segs := p.segs ++ [[⟨x, y⟩]], cur := ⟨x, y⟩ }

/-- Go `Path.LineTo(x, y)` (vector/path.go): appends the point to the last
segment unless it repeats the segment's last point. Segments are nonempty by
construction; the unreachable empty-segment case leaves the segment as is. -/
def VPath.lineTo (p : VPath) (x y : Rat) : VPath :=
  let segs := if p.segs.isEmpty then [[p.cur]] else p.segs
  let seg := segs.getLastD []
  let seg2 :=
    match seg.getLast? with
    | some last => if last.x ≠ x ∨ last.y ≠ y then seg ++ [⟨x, y⟩] else seg
    | none => seg
  { segs := segs.dropLast ++ [seg2], cur := ⟨x, y⟩ }

/-- The closeness test `isPointCloseToSegment` of the source is float32
arithmetic; the claims about the flattening recursion hold for an arbitrary
test, so the test is a parameter of type
`(x y x0 y0 x1 y1 : Rat) → Bool` (the `allow` threshold is baked in). -/
abbrev CloseTest := Rat → Rat → Rat → Rat → Rat → Rat → Bool

/-- Go `Path.quadTo(x1, y1, x2, y2, level)` (vector/path.go, lines 77-97),
parametrized by the closeness test: returns at once above level 10,
otherwise either emits a line or subdivides at the midpoints with
`level+1`. -/
def VPath.quadTo (close : CloseTest) (p : VPath) (x1 y1 x2 y2 : Rat)
    (level : Int) : VPath :=
  if level > 10 then p
  else
    let x0 := p.cur.x
    let y0 := p.cur.y
    if close x1 y1 x0 y0 x2 y2 then p.lineTo x2 y2
    else
      let x01 := (x0 + x1) / 2
      let y01 := (y0 + y1) / 2
      let x12 := (x1 + x2) / 2
      let y12 := (y1 + y2) / 2
      let x012 := (x01 + x12) / 2
      let y012 := (y01 + y12) / 2
      let p1 := VPath.quadTo close p x01 y01 x012 y012 (level + 1)
      VPath.quadTo close p1 x12 y12 x2 y2 (level + 1)
termination_by (11 - level).toNat
decreasing_by
  all_goals omega

/-- `VPath.quadTo` instrumented with the number of nested call frames the
call uses (the call itself counts as one frame); the midpoint arithmetic is
written out inline but is the same as in `VPath.quadTo`. -/
def VPath.quadToD (close : CloseTest) (p : VPath) (x1 y1 x2 y2 : Rat)
    (level : Int) : VPath × Nat :=
  if level > 10 then (p, 1)
  else if close x1 y1 p.cur.x p.cur.y x2 y2 then (p.lineTo x2 y2, 1)
  else
    ((VPath.quadToD close
        (VPath.quadToD close p ((p.cur.x + x1) / 2) ((p.cur.y + y1) / 2)
          (((p.cur.x + x1) / 2 + (x1 + x2) / 2) / 2)
          (((p.cur.y + y1) / 2 + (y1 + y2) / 2) / 2) (level + 1)).1
        ((x1 + x2) / 2) ((y1 + y2) / 2) x2 y2 (level + 1)).1,
     1 + Nat.max
        (VPath.quadToD close p ((p.cur.x + x1) / 2) ((p.cur.y + y1) / 2)
          (((p.cur.x + x1) / 2 + (x1 + x2) / 2) / 2)
          (((p.cur.y + y1) / 2 + (y1 + y2) / 2) / 2) (level + 1)).2
        (VPath.quadToD close
          (VPath.quadToD close p ((p.cur.x + x1) / 2) ((p.cur.y + y1) / 2)
            (((p.cur.x + x1) / 2 + (x1 + x2) / 2) / 2)
            (((p.cur.y + y1) / 2 + (y1 + y2) / 2) / 2) (level + 1)).1
          ((x1 + x2) / 2) ((y1 + y2) / 2) x2 y2 (level + 1)).2)
termination_by (11 - level).toNat
decreasing_by
  all_goals omega

/-- Go `Path.cubicTo(x1, y1, x2, y2, x3, y3, level)` (vector/path.go,
lines 107-133), parametrized by the closeness test. -/
def VPath.cubicTo (close : CloseTest) (p : VPath) (x1 y1 x2 y2 x3 y3 : Rat)
    (level : Int) : VPath :=
  if level > 10 then p
  else
    let x0 := p.cur.x
    let y0 := p.cur.y
    if close x1 y1 x0 y0 x3 y3 && close x2 y2 x0 y0 x3 y3 then p.lineTo x3 y3
    else
      let x01 := (x0 + x1) / 2
      let y01 := (y0 + y1) / 2
      let x12 := (x1 + x2) / 2
      let y12 := (y1 + y2) / 2
      let x23 := (x2 + x3) / 2
      let y23 := (y2 + y3) / 2
      let x012 := (x01 + x12) / 2
      let y012 := (y01 + y12) / 2
      let x123 := (x12 + x23) / 2
      let y123 := (y12 + y23) / 2
      let x0123 := (x012 + x123) / 2
      let y0123 := (y012 + y123) / 2
      let p1 := VPath.cubicTo close p x01 y01 x012 y012 x0123 y0123 (level + 1)
      VPath.cubicTo close p1 x123 y123 x23 y23 x3 y3 (level + 1)
termination_by (11 - level).toNat
decreasing_by
  all_goals omega

/-- `VPath.cubicTo` instrumented with the number of nested call frames; the
midpoint arithmetic is written out inline but is the same as in
`VPath.cubicTo`. -/
def VPath.cubicToD (close : CloseTest) (p : VPath) (x1 y1 x2 y2 x3 y3 : Rat)
    (level : Int) : VPath × Nat :=
  if level > 10 then (p, 1)
  else if close x1 y1 p.cur.x p.cur.y x3 y3 && close x2 y2 p.cur.x p.cur.y x3 y3 then
    (p.lineTo x3 y3, 1)
  else
    ((VPath.cubicToD close
        (VPath.cubicToD close p ((p.cur.x + x1) / 2) ((p.cur.y + y1) / 2)
          (((p.cur.x + x1) / 2 + (x1 + x2) / 2) / 2)
          (((p.cur.y + y1) / 2 + (y1 + y2) / 2) / 2)
          ((((p.cur.x + x1) / 2 + (x1 + x2) / 2) / 2 + ((x1 + x2) / 2 + (x2 + x3) / 2) / 2) / 2)
          ((((p.cur.y + y1) / 2 + (y1 + y2) / 2) / 2 + ((y1 + y2) / 2 + (y2 + y3) / 2) / 2) / 2)
          (level + 1)).1
        (((x1 + x2) / 2 + (x2 + x3) / 2) / 2) (((y1 + y2) / 2 + (y2 + y3) / 2) / 2)
        ((x2 + x3) / 2) ((y2 + y3) / 2) x3 y3 (level + 1)).1,
     1 + Nat.max
        (VPath.cubicToD close p ((p.cur.x + x1) / 2) ((p.cur.y + y1) / 2)
          (((p.cur.x + x1) / 2 + (x1 + x2) / 2) / 2)
          (((p.cur.y + y1) / 2 + (y1 + y2) / 2) / 2)
          ((((p.cur.x + x1) / 2 + (x1 + x2) / 2) / 2 + ((x1 + x2) / 2 + (x2 + x3) / 2) / 2) / 2)
          ((((p.cur.y + y1) / 2 + (y1 + y2) / 2) / 2 + ((y1 + y2) / 2 + (y2 + y3) / 2) / 2) / 2)
          (level + 1)).2
        (VPath.cubicToD close
          (VPath.cubicToD close p ((p.cur.x + x1) / 2) ((p.cur.y + y1) / 2)
            (((p.cur.x + x1) / 2 + (x1 + x2) / 2) / 2)
            (((p.cur.y + y1) / 2 + (y1 + y2) / 2) / 2)
            ((((p.cur.x + x1) / 2 + (x1 + x2) / 2) / 2 + ((x1 + x2) / 2 + (x2 + x3) / 2) / 2) / 2)
            ((((p.cur.y + y1) / 2 + (y1 + y2) / 2) / 2 + ((y1 + y2) / 2 + (y2 + y3) / 2) / 2) / 2)
            (level + 1)).1
          (((x1 + x2) / 2 + (x2 + x3) / 2) / 2) (((y1 + y2) / 2 + (y2 + y3) / 2) / 2)
          ((x2 + x3) / 2) ((y2 + y3) / 2) x3 y3 (level + 1)).2)
termination_by (11 - level).toNat
decreasing_by
  all_goals omega

end VectorPath

namespace Restorable

theorem containsRegion_eq_any (l : List Rectangle) (region : Rectangle) :
    containsRegion l region = l.any (fun r => region.In r) := by
  induction l with
  | nil => rfl
  | cons r rest ih => simp [containsRegion, ih, List.any_cons]

theorem compactRegions_eq_filter (l : List Rectangle) (region : Rectangle) :
    compactRegions l region = l.filter (fun r => !(r.In region)) := by
  induction l with
  | nil => rfl
  | cons r rest ih =>
    by_cases h : r.In region <;> simp [compactRegions, h, ih, List.filter_cons]

theorem In_refl (r : Rectangle) : r.In r = true := by
  unfold Rectangle.In
  split
  · rfl
  · simp

theorem appendRegion_of_contained (l : List Rectangle) (region r : Rectangle)
    (hr : r ∈ l) (h : region.In r = true) :
    appendRegionRemovingDuplicates l region = l := by
  have hc : containsRegion l region = true := by
    rw [containsRegion_eq_any]
    exact List.any_eq_true.mpr ⟨r, hr, h⟩
  simp [appendRegionRemovingDuplicates, hc]

theorem appendRegion_of_not_contained (l : List Rectangle) (region : Rectangle)
    (h : ∀ r ∈ l, region.In r = false) :
    appendRegionRemovingDuplicates l region
      = l.filter (fun r => !(r.In region)) ++ [region] := by
  have hc : containsRegion l region = false := by
    rw [containsRegion_eq_any]
    simp only [List.any_eq_false]
    intro r hr
    simp [h r hr]
  simp [appendRegionRemovingDuplicates, hc, compactRegions_eq_filter]

theorem mem_of_mem_appendRegion {l : List Rectangle} {x r : Rectangle}
    (h : r ∈ appendRegionRemovingDuplicates l x) : r ∈ l ∨ r = x := by
  unfold appendRegionRemovingDuplicates at h
  split at h
  · exact Or.inl h
  · rw [compactRegions_eq_filter] at h
    rcases List.mem_append.mp h with hm | hm
    · exact Or.inl (List.mem_filter.mp hm).1
    · simp only [List.mem_singleton] at hm
      exact Or.inr hm

/-- Claim C4 (amended). Duplicate-elimination on insert, for
`appendRegionRemovingDuplicates`: provided no already-present region fully
contains `r2`, inserting `r1` and then `r2`, where `r2` fully contains `r1`
but not conversely, leaves a collection that contains `r2` and no longer
contains `r1`. Conversely (with no side condition), if `r2` is fully
contained in an already present region `r1`, inserting `r2` leaves the
collection unchanged. -/
theorem C4_appendRegion_dedup :
    (∀ (l : List Rectangle) (r1 r2 : Rectangle),
        (∀ r ∈ l, r2.In r = false) → r1.In r2 = true → r2.In r1 = false →
        r2 ∈ appendRegionRemovingDuplicates (appendRegionRemovingDuplicates l r1) r2 ∧
        r1 ∉ appendRegionRemovingDuplicates (appendRegionRemovingDuplicates l r1) r2) ∧
    (∀ (l : List Rectangle) (r1 r2 : Rectangle),
        r1 ∈ l → r2.In r1 = true →
        appendRegionRemovingDuplicates l r2 = l) := by
  constructor
  · intro l r1 r2 hl h12 h21
    have hl1 : ∀ r ∈ appendRegionRemovingDuplicates l r1, r2.In r = false := by
      intro r hr
      rcases mem_of_mem_appendRegion hr with hm | hm
      · exact hl r hm
      · rw [hm]; exact h21
    rw [appendRegion_of_not_contained _ _ hl1]
    constructor
    · simp
    · intro hmem
      rcases List.mem_append.mp hmem with hm | hm
      · have := (List.mem_filter.mp hm).2
        simp [h12] at this
      · simp only [List.mem_singleton] at hm
        rw [hm, In_refl] at h21
        cases h21
  · intro l r1 r2 hr1 h
    exact appendRegion_of_contained l r2 r1 hr1 h

/-- Claim C4 counterexample: the claim quantifies over every starting
region list; with a pre-existing region (0,0)-(10,10) that already contains
`r2` = (1,1)-(3,3), inserting `r1` = (1,1)-(2,2) and then `r2` (which fully
contains `r1`) leaves the collection equal to the original single region, so
it does not contain `r2`. -/
theorem C4_counterexample :
    appendRegionRemovingDuplicates
        (appendRegionRemovingDuplicates [⟨⟨0, 0⟩, ⟨10, 10⟩⟩] ⟨⟨1, 1⟩, ⟨2, 2⟩⟩)
        ⟨⟨1, 1⟩, ⟨3, 3⟩⟩
      = [⟨⟨0, 0⟩, ⟨10, 10⟩⟩] ∧
    (⟨⟨1, 1⟩, ⟨2, 2⟩⟩ : Rectangle).In ⟨⟨1, 1⟩, ⟨3, 3⟩⟩ = true ∧
    (⟨⟨1, 1⟩, ⟨3, 3⟩⟩ : Rectangle) ∉ ([⟨⟨0, 0⟩, ⟨10, 10⟩⟩] : List Rectangle) := by
  refine ⟨by decide, by decide, by decide⟩

/-- Claim C4 witness: the amended dedup statement at concrete inputs —
inserting (0,0)-(1,1) then (0,0)-(2,2) into the empty collection keeps only
the larger region, and inserting (1,1)-(2,2) into [(0,0)-(5,5)] is a
no-op. -/
theorem C4_appendRegion_dedup_witness :
    ((⟨⟨0, 0⟩, ⟨2, 2⟩⟩ : Rectangle)
        ∈ appendRegionRemovingDuplicates
            (appendRegionRemovingDuplicates [] ⟨⟨0, 0⟩, ⟨1, 1⟩⟩) ⟨⟨0, 0⟩, ⟨2, 2⟩⟩ ∧
      (⟨⟨0, 0⟩, ⟨1, 1⟩⟩ : Rectangle)
        ∉ appendRegionRemovingDuplicates
            (appendRegionRemovingDuplicates [] ⟨⟨0, 0⟩, ⟨1, 1⟩⟩) ⟨⟨0, 0⟩, ⟨2, 2⟩⟩) ∧
    appendRegionRemovingDuplicates [⟨⟨0, 0⟩, ⟨5, 5⟩⟩] ⟨⟨1, 1⟩, ⟨2, 2⟩⟩
      = [⟨⟨0, 0⟩, ⟨5, 5⟩⟩] :=
  ⟨C4_appendRegion_dedup.1 [] ⟨⟨0, 0⟩, ⟨1, 1⟩⟩ ⟨⟨0, 0⟩, ⟨2, 2⟩⟩
      (by simp) (by decide) (by decide),
   C4_appendRegion_dedup.2 [⟨⟨0, 0⟩, ⟨5, 5⟩⟩] ⟨⟨0, 0⟩, ⟨5, 5⟩⟩ ⟨⟨1, 1⟩, ⟨2, 2⟩⟩
      (by decide) (by decide)⟩

/-- Claim C9: `appendRegionRemovingDuplicates` preserves insertion order:
when some present region fully contains the new one, the list is returned
unchanged; otherwise the result is exactly the surviving pre-existing
regions, in their original relative order (a sublist of the input), with the
new region appended at the end. -/
theorem C9_appendRegion_order (l : List Rectangle) (region : Rectangle) :
    ((∃ r ∈ l, region.In r = true) → appendRegionRemovingDuplicates l region = l) ∧
    ((∀ r ∈ l, region.In r = false) →
      appendRegionRemovingDuplicates l region
          = l.filter (fun r => !(r.In region)) ++ [region] ∧
        (l.filter (fun r => !(r.In region))).Sublist l) := by
  constructor
  · rintro ⟨r, hr, h⟩
    exact appendRegion_of_contained l region r hr h
  · intro h
    exact ⟨appendRegion_of_not_contained l region h, List.filter_sublist l⟩

/-- Claim C9 witness at a concrete input: inserting (5,5)-(6,6) into
[(0,0)-(4,4), (1,1)-(2,2)] keeps both survivors in order and appends the new
region at the end. -/
theorem C9_appendRegion_order_witness :
    appendRegionRemovingDuplicates
        [⟨⟨0, 0⟩, ⟨4, 4⟩⟩, ⟨⟨1, 1⟩, ⟨2, 2⟩⟩] ⟨⟨5, 5⟩, ⟨6, 6⟩⟩
        = ([⟨⟨0, 0⟩, ⟨4, 4⟩⟩, ⟨⟨1, 1⟩, ⟨2, 2⟩⟩] : List Rectangle).filter
            (fun r => !(r.In ⟨⟨5, 5⟩, ⟨6, 6⟩⟩)) ++ [⟨⟨5, 5⟩, ⟨6, 6⟩⟩] ∧
      (([⟨⟨0, 0⟩, ⟨4, 4⟩⟩, ⟨⟨1, 1⟩, ⟨2, 2⟩⟩] : List Rectangle).filter
          (fun r => !(r.In ⟨⟨5, 5⟩, ⟨6, 6⟩⟩))).Sublist
        [⟨⟨0, 0⟩, ⟨4, 4⟩⟩, ⟨⟨1, 1⟩, ⟨2, 2⟩⟩] :=
  (C9_appendRegion_order _ _).2 (by decide)

/-- Claim C5: `restore` panics exactly on a Regular image whose stale flag
is true; it never panics on a Regular image with stale false, nor on a
Screen or Volatile image, whatever their stale flag. -/
theorem C5_restore_panic_iff (i : Image) (nh : Nat) :
    Image.restore i nh = none ↔ (i.imageType = ImageType.regular ∧ i.stale = true) := by
  cases hty : i.imageType
  case regular => by_cases hs : i.stale <;> simp [Image.restore, hty, hs]
  case screen => simp [Image.restore, hty]
  case volatile => simp [Image.restore, hty]

/-- Claim C2 counterexample: a Volatile image whose stale flag is true is
restored successfully, yet its stale flag is still true afterwards — the
Volatile branch of `restore` does not clear staleness. -/
theorem C2_counterexample :
    (Image.restore ⟨0, 1, 1, ⟨none⟩, true, [], ImageType.volatile⟩ 1).map
        (fun r => r.1.stale) = some true := by
  rfl

/-- Claim C2 (amended): after `restore` returns successfully, the stale
flag is false for Screen and Regular images; for Volatile images `restore`
leaves the stale flag unchanged (so a stale Volatile image stays stale). -/
theorem C2_restore_stale (i : Image) (nh : Nat) (res : Image × List GCommand)
    (h : Image.restore i nh = some res) :
    (i.imageType ≠ ImageType.volatile → res.1.stale = false) ∧
    (i.imageType = ImageType.volatile → res.1.stale = i.stale) := by
  cases hty : i.imageType
  case regular =>
    by_cases hs : i.stale
    · simp [Image.restore, hty, hs] at h
    · simp [Image.restore, hty, hs] at h
      constructor
      · intro _
        rw [← h]
      · intro hv
        simp at hv
  case screen =>
    simp [Image.restore, hty] at h
    constructor
    · intro _
      rw [← h]
    · intro hv
      simp at hv
  case volatile =>
    simp [Image.restore, hty] at h
    constructor
    · intro hv
      exact absurd rfl hv
    · intro _
      rw [← h]

/-- Claim C2 witness: restoring a non-stale 2×2 Regular image succeeds and
the restored image is not stale. -/
theorem C2_restore_stale_witness :
    (Image.restore ⟨5, 2, 2, ⟨none⟩, false, [], ImageType.regular⟩ 6).map
        (fun r => r.1.stale) = some false := by
  rcases hres : Image.restore ⟨5, 2, 2, ⟨none⟩, false, [], ImageType.regular⟩ 6 with _ | res
  · exact absurd hres (by decide)
  · have h := C2_restore_stale _ 6 res hres
    simp only [Option.map_some']
    rw [h.1 (by decide)]

theorem makeStaleIfDependingOn_eq_self (i : Image) (t : Nat) :
    i.makeStaleIfDependingOn t = i := by
  simp [Image.makeStaleIfDependingOn, Image.dependsOn]

theorem world_scan_eq (w : World) (t : Nat) :
    w.makeStaleIfDependingOn t
      = if w.lastTarget == some t then w else { w with lastTarget := some t } := by
  unfold World.makeStaleIfDependingOn
  split
  · rfl
  · simp [makeStaleIfDependingOn_eq_self]

theorem world_scan_images (w : World) (t : Nat) :
    (w.makeStaleIfDependingOn t).images = w.images := by
  rw [world_scan_eq]
  split <;> rfl

theorem world_scan_commands (w : World) (t : Nat) :
    (w.makeStaleIfDependingOn t).commands = w.commands := by
  rw [world_scan_eq]
  split <;> rfl

theorem getImage_eq_of_images_eq {w1 w2 : World} (h : w1.images = w2.images)
    (id : Nat) : w1.getImage id = w2.getImage id := by
  unfold World.getImage
  rw [h]

theorem getImage_set_commands (w : World) (c : List GCommand) (id : Nat) :
    ({ w with commands := c } : World).getImage id = w.getImage id := rfl

theorem find?_map_update_self (l : List (Nat × Image)) (id : Nat) (img : Image)
    (h : (l.find? (fun p => p.1 == id)).isSome = true) :
    (l.map (fun p => if p.1 == id then (id, img) else p)).find? (fun p => p.1 == id)
      = some (id, img) := by
  induction l with
  | nil => simp at h
  | cons hd tl ih =>
    simp only [List.map_cons]
    by_cases hk : hd.1 = id
    · have hb : (hd.1 == id) = true := by simp [hk]
      rw [if_pos hb]
      rw [List.find?_cons_of_pos _ (by simp)]
    · have hb : (hd.1 == id) = false := by simp [hk]
      rw [if_neg (by simp [hb])]
      rw [List.find?_cons_of_neg _ (by simp [hb])]
      apply ih
      rwa [List.find?_cons_of_neg _ (by simp [hb])] at h

theorem find?_map_update_ne (l : List (Nat × Image)) (id id2 : Nat) (img : Image)
    (hne : id2 ≠ id) :
    (l.map (fun p => if p.1 == id then (id, img) else p)).find? (fun p => p.1 == id2)
      = l.find? (fun p => p.1 == id2) := by
  induction l with
  | nil => rfl
  | cons hd tl ih =>
    simp only [List.map_cons]
    by_cases hk : hd.1 = id
    · have hb : (hd.1 == id) = true := by simp [hk]
      rw [if_pos hb]
      rw [List.find?_cons_of_neg _ (by simp [Ne.symm hne])]
      rw [List.find?_cons_of_neg _ (by simp [hk]; exact Ne.symm hne)]
      exact ih
    · have hb : (hd.1 == id) = false := by simp [hk]
      rw [if_neg (by simp [hb])]
      by_cases h2 : hd.1 = id2
      · rw [List.find?_cons_of_pos _ (by simp [h2]),
          List.find?_cons_of_pos _ (by simp [h2])]
      · rw [List.find?_cons_of_neg _ (by simp [h2]),
          List.find?_cons_of_neg _ (by simp [h2])]
        exact ih

theorem getImage_setImage_self (w : World) (id : Nat) (img : Image)
    (h : (w.getImage id).isSome = true) :
    (w.setImage id img).getImage id = some img := by
  have h' : (w.images.find? (fun p => p.1 == id)).isSome = true := by
    unfold World.getImage at h
    simpa using h
  unfold World.getImage World.setImage
  simp only []
  rw [find?_map_update_self _ _ _ h']
  rfl

theorem getImage_setImage_ne (w : World) (id id2 : Nat) (img : Image)
    (hne : id2 ≠ id) :
    (w.setImage id img).getImage id2 = w.getImage id2 := by
  unfold World.getImage World.setImage
  simp only []
  rw [find?_map_update_ne _ _ _ _ hne]

theorem isEmpty_false_of_pos {region : Rectangle} (hdx : 0 < region.dx)
    (hdy : 0 < region.dy) : region.isEmpty = false := by
  unfold Rectangle.dx at hdx
  unfold Rectangle.dy at hdy
  unfold Rectangle.isEmpty
  simp only [ge_iff_le, Bool.or_eq_false_iff, decide_eq_false_iff_not, not_le]
  omega

theorem goRect_nonneg (W H : Int) (hW : 0 ≤ W) (hH : 0 ≤ H) :
    goRect 0 0 W H = ⟨⟨0, 0⟩, ⟨W, H⟩⟩ := by
  unfold goRect
  rw [if_neg (by omega), if_neg (by omega)]

theorem In_bounds_iff (region : Rectangle) (W H : Int) (hW : 0 ≤ W) (hH : 0 ≤ H)
    (hdx : 0 < region.dx) (hdy : 0 < region.dy) :
    region.In (goRect 0 0 W H) = true ↔
      (0 ≤ region.min.x ∧ region.max.x ≤ W ∧ 0 ≤ region.min.y ∧ region.max.y ≤ H) := by
  rw [goRect_nonneg W H hW hH]
  unfold Rectangle.In
  rw [if_neg (by simp [isEmpty_false_of_pos hdx hdy])]
  simp only [Bool.and_eq_true, decide_eq_true_eq]
  constructor
  · rintro ⟨⟨⟨h1, h2⟩, h3⟩, h4⟩
    exact ⟨h1, h2, h3, h4⟩
  · rintro ⟨h1, h2, h3, h4⟩
    exact ⟨⟨⟨h1, h2⟩, h3⟩, h4⟩

theorem writePixels_run (w : World) (id : Nat) (i : Image)
    (pixels : Option ManagedBytes) (region : Rectangle)
    (hi : w.getImage id = some i)
    (hdx : 0 < region.dx) (hdy : 0 < region.dy)
    (hin : region.In (goRect 0 0 i.width i.height) = true) :
    ∃ w2, w.writePixels id pixels region = some w2 ∧
      w2.getImage id = some (i.makeStale region) := by
  have hscan : (w.makeStaleIfDependingOn id).getImage id = some i :=
    (getImage_eq_of_images_eq (world_scan_images w id) id).trans hi
  have hsome : ∀ w3 : World, w3.getImage id = some i →
      (match w3.getImage id with
        | none => none
        | some j => some (w3.setImage id (j.makeStale region))) = some (w3.setImage id (i.makeStale region)) := by
    intro w3 h3
    rw [h3]
  unfold World.writePixels
  simp only [hi]
  rw [if_neg (by omega)]
  rw [if_neg (by simp [hin])]
  rcases pixels with _ | pix
  · have h3 : (clearImageOn (w.makeStaleIfDependingOn id) i.image region).getImage id = some i := by
      unfold clearImageOn
      rw [getImage_set_commands]
      exact hscan
    rw [hsome _ h3]
    refine ⟨_, rfl, ?_⟩
    apply getImage_setImage_self
    rw [h3]
    rfl
  · have h3 : ({ w.makeStaleIfDependingOn id with
        commands := (w.makeStaleIfDependingOn id).commands ++ [GCommand.writePixels i.image pix region] } : World).getImage id = some i := by
      rw [getImage_set_commands]
      exact hscan
    rw [hsome _ h3]
    refine ⟨_, rfl, ?_⟩
    apply getImage_setImage_self
    rw [h3]
    rfl

theorem writePixels_some_inv (w : World) (id : Nat) (i : Image)
    (pixels : Option ManagedBytes) (region : Rectangle) (w2 : World)
    (hi : w.getImage id = some i)
    (hw : w.writePixels id pixels region = some w2) :
    w2.getImage id = some (i.makeStale region) := by
  by_cases h1 : region.dx ≤ 0 ∨ region.dy ≤ 0
  · exfalso
    unfold World.writePixels at hw
    simp only [hi] at hw
    rw [if_pos h1] at hw
    exact Option.noConfusion hw
  · by_cases h2 : region.In (goRect 0 0 i.width i.height) = true
    · obtain ⟨w2', heq, hget⟩ :=
        writePixels_run w id i pixels region hi (by omega) (by omega) h2
      rw [heq] at hw
      injection hw with hw
      rw [← hw]
      exact hget
    · exfalso
      have hf : region.In (goRect 0 0 i.width i.height) = false :=
        Bool.eq_false_iff.mpr h2
      unfold World.writePixels at hw
      simp only [hi] at hw
      rw [if_neg h1] at hw
      rw [if_pos (by simp [hf])] at hw
      exact Option.noConfusion hw

/-- Claim C1 counterexample: on a fresh 4×4 Regular image, a successful
`WritePixels` call with a non-nil 2×2 buffer leaves `basePixels` with no
records at all — the buffer is not appended into the image's PixelRecords
(which would have produced `Pixels.AddOrReplace` of it, a different value). -/
theorem C1_counterexample :
    ((World.writePixels
          ⟨true, [(0, ⟨0, 4, 4, ⟨none⟩, false, [], ImageType.regular⟩)], none, 1, []⟩
          0 (some (List.replicate 16 255)) ⟨⟨0, 0⟩, ⟨2, 2⟩⟩).bind
        (fun w2 => (w2.getImage 0).map (fun j => j.basePixels))) = some ⟨none⟩ ∧
      (⟨none⟩ : Pixels)
        ≠ (⟨none⟩ : Pixels).AddOrReplace (List.replicate 16 255) ⟨⟨0, 0⟩, ⟨2, 2⟩⟩ := by
  refine ⟨by rfl, by decide⟩

/-- Claim C1 (amended): `WritePixels` does not record into PixelRecords on
any image type: after a successful call the image's `basePixels` is exactly
what it was before (the image is merely marked stale). -/
theorem C1_writePixels_basePixels_unchanged (w : World) (id : Nat) (i : Image)
    (pixels : Option ManagedBytes) (region : Rectangle) (w2 : World)
    (hi : w.getImage id = some i)
    (hw : w.writePixels id pixels region = some w2) :
    ∃ j, w2.getImage id = some j ∧ j.basePixels = i.basePixels :=
  ⟨i.makeStale region, writePixels_some_inv w id i pixels region w2 hi hw, rfl⟩

/-- Claim C1 witness: the amended statement at the concrete run of the
counterexample input. -/
theorem C1_writePixels_basePixels_unchanged_witness :
    ∃ j, (World.setImage
        (⟨true, [(0, ⟨0, 4, 4, ⟨none⟩, false, [], ImageType.regular⟩)], some 0, 1,
          [GCommand.writePixels 0 (List.replicate 16 255) ⟨⟨0, 0⟩, ⟨2, 2⟩⟩]⟩ : World)
        0 ⟨0, 4, 4, ⟨none⟩, true, [], ImageType.regular⟩).getImage 0 = some j ∧
      j.basePixels = (⟨none⟩ : Pixels) := by
  have h := C1_writePixels_basePixels_unchanged
    ⟨true, [(0, ⟨0, 4, 4, ⟨none⟩, false, [], ImageType.regular⟩)], none, 1, []⟩
    0 ⟨0, 4, 4, ⟨none⟩, false, [], ImageType.regular⟩
    (some (List.replicate 16 255)) ⟨⟨0, 0⟩, ⟨2, 2⟩⟩
    (World.setImage
      (⟨true, [(0, ⟨0, 4, 4, ⟨none⟩, false, [], ImageType.regular⟩)], some 0, 1,
        [GCommand.writePixels 0 (List.replicate 16 255) ⟨⟨0, 0⟩, ⟨2, 2⟩⟩]⟩ : World)
      0 ⟨0, 4, 4, ⟨none⟩, true, [], ImageType.regular⟩)
    (by rfl) (by rfl)
  exact h

/-- Claim C3 counterexample: on a fresh 4×4 Regular image, a successful
`WritePixels` (clear) over (1,1)-(3,3) leaves `staleRegions` empty — the
written region is not added to the stale-region list (`makeStale` only sets
the stale flag). -/
theorem C3_counterexample :
    ((World.writePixels
          ⟨true, [(0, ⟨0, 4, 4, ⟨none⟩, false, [], ImageType.regular⟩)], none, 1, []⟩
          0 none ⟨⟨1, 1⟩, ⟨3, 3⟩⟩).bind
        (fun w2 => (w2.getImage 0).map (fun j => j.staleRegions))) = some [] ∧
      (⟨⟨1, 1⟩, ⟨3, 3⟩⟩ : Rectangle) ∉ ([] : List Rectangle) := by
  refine ⟨by rfl, by decide⟩

/-- Claim C3 (amended): after a successful `WritePixels` the image's stale
flag is true, but the stale-region list is exactly what it was before the
call — `makeStale` does not extend `staleRegions`. -/
theorem C3_writePixels_staleRegions_unchanged (w : World) (id : Nat) (i : Image)
    (pixels : Option ManagedBytes) (region : Rectangle) (w2 : World)
    (hi : w.getImage id = some i)
    (hw : w.writePixels id pixels region = some w2) :
    ∃ j, w2.getImage id = some j ∧ j.stale = true ∧ j.staleRegions = i.staleRegions :=
  ⟨i.makeStale region, writePixels_some_inv w id i pixels region w2 hi hw, rfl, rfl⟩

/-- Claim C3 witness: the amended statement at the concrete run of the
counterexample input. -/
theorem C3_writePixels_staleRegions_unchanged_witness :
    ∃ j, (World.setImage
        (clearImageOn
          (⟨true, [(0, ⟨0, 4, 4, ⟨none⟩, false, [], ImageType.regular⟩)], some 0, 1,
            []⟩ : World) 0 ⟨⟨1, 1⟩, ⟨3, 3⟩⟩)
        0 ⟨0, 4, 4, ⟨none⟩, true, [], ImageType.regular⟩).getImage 0 = some j ∧
      j.stale = true ∧ j.staleRegions = ([] : List Rectangle) := by
  have h := C3_writePixels_staleRegions_unchanged
    ⟨true, [(0, ⟨0, 4, 4, ⟨none⟩, false, [], ImageType.regular⟩)], none, 1, []⟩
    0 ⟨0, 4, 4, ⟨none⟩, false, [], ImageType.regular⟩
    none ⟨⟨1, 1⟩, ⟨3, 3⟩⟩
    (World.setImage
      (clearImageOn
        (⟨true, [(0, ⟨0, 4, 4, ⟨none⟩, false, [], ImageType.regular⟩)], some 0, 1,
          []⟩ : World) 0 ⟨⟨1, 1⟩, ⟨3, 3⟩⟩)
      0 ⟨0, 4, 4, ⟨none⟩, true, [], ImageType.regular⟩)
    (by rfl) (by rfl)
  exact h

/-- Claim C6: `WritePixels` panics exactly when the region precondition is
violated: it panics (modelled as `none`) iff the region has non-positive
width or height, or does not lie within [0,width)×[0,height) of the image;
for a positive-area in-bounds region no panic branch is reached. -/
theorem C6_writePixels_panic_iff (w : World) (id : Nat) (i : Image)
    (pixels : Option ManagedBytes) (region : Rectangle)
    (hi : w.getImage id = some i) (hW : 0 ≤ i.width) (hH : 0 ≤ i.height) :
    w.writePixels id pixels region = none ↔
      ¬(0 < region.dx ∧ 0 < region.dy ∧
        0 ≤ region.min.x ∧ region.max.x ≤ i.width ∧
        0 ≤ region.min.y ∧ region.max.y ≤ i.height) := by
  constructor
  · intro hnone hvalid
    obtain ⟨hdx, hdy, h1, h2, h3, h4⟩ := hvalid
    have hin : region.In (goRect 0 0 i.width i.height) = true :=
      (In_bounds_iff region i.width i.height hW hH hdx hdy).mpr ⟨h1, h2, h3, h4⟩
    obtain ⟨w2, heq, _⟩ := writePixels_run w id i pixels region hi hdx hdy hin
    rw [heq] at hnone
    exact Option.noConfusion hnone
  · intro hinvalid
    unfold World.writePixels
    simp only [hi]
    by_cases hb : region.dx ≤ 0 ∨ region.dy ≤ 0
    · rw [if_pos hb]
    · rw [if_neg hb]
      have hdx : 0 < region.dx := by omega
      have hdy : 0 < region.dy := by omega
      have hin : region.In (goRect 0 0 i.width i.height) = false := by
        rw [Bool.eq_false_iff]
        intro ht
        obtain ⟨h1, h2, h3, h4⟩ :=
          (In_bounds_iff region i.width i.height hW hH hdx hdy).mp ht
        exact hinvalid ⟨hdx, hdy, h1, h2, h3, h4⟩
      rw [if_pos (by simp [hin])]

/-- Claim C6 witness: at a 4×4 image, writing region (0,0)-(2,2) does not
panic, matching the precondition; the iff is instantiated concretely. -/
theorem C6_writePixels_panic_iff_witness :
    (World.writePixels
        ⟨true, [(0, ⟨0, 4, 4, ⟨none⟩, false, [], ImageType.regular⟩)], none, 1, []⟩
        0 none ⟨⟨0, 0⟩, ⟨2, 2⟩⟩ = none ↔
      ¬(0 < (⟨⟨0, 0⟩, ⟨2, 2⟩⟩ : Rectangle).dx ∧ 0 < (⟨⟨0, 0⟩, ⟨2, 2⟩⟩ : Rectangle).dy ∧
        0 ≤ (⟨⟨0, 0⟩, ⟨2, 2⟩⟩ : Rectangle).min.x ∧
        (⟨⟨0, 0⟩, ⟨2, 2⟩⟩ : Rectangle).max.x ≤ (4 : Int) ∧
        0 ≤ (⟨⟨0, 0⟩, ⟨2, 2⟩⟩ : Rectangle).min.y ∧
        (⟨⟨0, 0⟩, ⟨2, 2⟩⟩ : Rectangle).max.y ≤ (4 : Int))) :=
  C6_writePixels_panic_iff
    ⟨true, [(0, ⟨0, 4, 4, ⟨none⟩, false, [], ImageType.regular⟩)], none, 1, []⟩
    0 ⟨0, 4, 4, ⟨none⟩, false, [], ImageType.regular⟩ none ⟨⟨0, 0⟩, ⟨2, 2⟩⟩
    (by rfl) (by decide) (by decide)

theorem find?_none_of_keys_lt (l : List (Nat × Image)) (n : Nat)
    (h : ∀ p ∈ l, p.1 < n) :
    l.find? (fun p => p.1 == n) = none := by
  rw [List.find?_eq_none]
  intro p hp
  simp only [beq_iff_eq]
  exact Nat.ne_of_lt (h p hp)

theorem map_update_of_keys_lt (l : List (Nat × Image)) (n : Nat) (img : Image)
    (h : ∀ p ∈ l, p.1 < n) :
    l.map (fun p => if p.1 == n then (n, img) else p) = l := by
  induction l with
  | nil => rfl
  | cons hd tl ih =>
    simp only [List.map_cons]
    rw [if_neg (by simp only [beq_iff_eq]; exact Nat.ne_of_lt (h hd (List.mem_cons_self hd tl)))]
    rw [ih (fun p hp => h p (List.mem_cons_of_mem hd hp))]

theorem find?_filter_self (l : List (Nat × Image)) (id : Nat) :
    (l.filter (fun p => !(p.1 == id))).find? (fun p => p.1 == id) = none := by
  rw [List.find?_eq_none]
  intro p hp
  have h2 := (List.mem_filter.mp hp).2
  simp only [Bool.not_eq_true'] at h2
  simp [h2]

theorem find?_filter_ne (l : List (Nat × Image)) (id id2 : Nat) (hne : id2 ≠ id) :
    (l.filter (fun p => !(p.1 == id))).find? (fun p => p.1 == id2)
      = l.find? (fun p => p.1 == id2) := by
  induction l with
  | nil => rfl
  | cons hd tl ih =>
    by_cases hk : hd.1 = id
    · rw [List.filter_cons_of_neg (by simp [hk])]
      rw [List.find?_cons_of_neg _ (by simp only [beq_iff_eq]; rw [hk]; exact Ne.symm hne)]
      exact ih
    · rw [List.filter_cons_of_pos (by simp [hk])]
      by_cases h2 : hd.1 = id2
      · rw [List.find?_cons_of_pos _ (by simp [h2]),
          List.find?_cons_of_pos _ (by simp [h2])]
      · rw [List.find?_cons_of_neg _ (by simp [h2]),
          List.find?_cons_of_neg _ (by simp [h2])]
        exact ih

theorem getImage_as_find? (w : World) (id : Nat) :
    w.getImage id = (w.images.find? (fun p => p.1 == id)).map Prod.snd := rfl

theorem find?_of_getImage_some {w : World} {id : Nat} {i : Image}
    (hi : w.getImage id = some i) :
    w.images.find? (fun p => p.1 == id) = some (id, i) := by
  rw [getImage_as_find?] at hi
  rcases hm : w.images.find? (fun p => p.1 == id) with _ | pr
  · rw [hm] at hi
    exact Option.noConfusion hi
  · rw [hm] at hi
    have hkey := List.find?_some hm
    simp only [beq_iff_eq] at hkey
    simp only [Option.map_some'] at hi
    injection hi with hi
    rw [hm]
    have hpr : pr = (id, i) := by
      rw [← hkey, ← hi]
    rw [hpr]

theorem newImage_run (w : World) (width height : Int) (ty : ImageType)
    (hd : w.driverInitialized = true) :
    newImage w width height ty
      = some ({ driverInitialized := w.driverInitialized,
                images := w.images
                  ++ [(w.nextId, ⟨w.nextId, width, height, ⟨none⟩, false, [], ty⟩)],
                lastTarget := w.lastTarget,
                nextId := w.nextId + 1,
                commands := (w.commands
                    ++ [GCommand.newImage width height (ty == ImageType.screen)])
                  ++ [clearCommand w.nextId (goRect 0 0 width height)] },
              w.nextId) := by
  unfold newImage clearImageOn internalSize
  rw [if_neg (by simp [hd])]

theorem setImage_images (w : World) (id : Nat) (img : Image) :
    (w.setImage id img).images
      = w.images.map (fun p => if p.1 == id then (id, img) else p) := rfl

theorem setImage_commands (w : World) (id : Nat) (img : Image) :
    (w.setImage id img).commands = w.commands := rfl

theorem dispose_fields (w : World) (id : Nat) (i : Image)
    (hi : w.getImage id = some i) :
    (w.dispose id).images = w.images.filter (fun p => !(p.1 == id)) ∧
    (w.dispose id).commands = w.commands ++ [GCommand.disposeImage i.image] := by
  unfold World.dispose World.remove
  simp only [hi]
  constructor
  · show (w.makeStaleIfDependingOn id).images.filter _ = _
    rw [world_scan_images]
  · show (w.makeStaleIfDependingOn id).commands ++ _ = _
    rw [world_scan_commands]

theorem drawTriangles_fields (w : World) (dst : Nat) (j : Image)
    (srcs : List (Option Nat)) (vertices : List Rat)
    (hv : ¬(vertices.length = 0))
    (hj : (w.makeStaleIfDependingOn dst).getImage dst = some j)
    (indices : List Nat) (blend : Blend) (dstRegion : Rectangle)
    (srcRegions : List Rectangle) (shader : Nat) (uniforms : List Nat)
    (fillRule : FillRule) :
    (w.drawTriangles dst srcs vertices indices blend dstRegion srcRegions
        shader uniforms fillRule).images
      = w.images.map (fun p => if p.1 == dst then (dst, j.makeStale dstRegion) else p) ∧
    (w.drawTriangles dst srcs vertices indices blend dstRegion srcRegions
        shader uniforms fillRule).commands
      = w.commands ++ [GCommand.drawTriangles j.image
          (srcs.map (fun o => o.bind (fun sid =>
            (((w.makeStaleIfDependingOn dst).setImage dst
                (j.makeStale dstRegion)).getImage sid).map Image.image)))
          vertices indices blend dstRegion shader fillRule] := by
  unfold World.drawTriangles
  rw [if_neg hv]
  simp only [hj]
  constructor
  · show ((w.makeStaleIfDependingOn dst).setImage dst (j.makeStale dstRegion)).images = _
    rw [setImage_images, world_scan_images]
  · show ((w.makeStaleIfDependingOn dst).setImage dst (j.makeStale dstRegion)).commands
        ++ _ = _
    rw [setImage_commands, world_scan_commands]

/-- Claim C8: `Extend` returns the image itself with the whole world state
unchanged whenever the current size already covers the requested size
(idempotent no-op); only otherwise does it construct and register a new
image of the requested size (and the same type, already marked stale by the
copy), forward the copy draw (copy blend, the old image as source, over the
old image's full internal extent) to the command layer, and dispose the
original, which is no longer registered. -/
theorem C8_extend_noop_or_replace (w : World) (id : Nat) (width height : Int)
    (i : Image)
    (hi : w.getImage id = some i)
    (hd : w.driverInitialized = true)
    (hwf : ∀ p ∈ w.images, p.1 < w.nextId) :
    (i.width ≥ width ∧ i.height ≥ height →
      w.extend id width height = some (w, id)) ∧
    (¬(i.width ≥ width ∧ i.height ≥ height) →
      ∃ w2, w.extend id width height = some (w2, w.nextId) ∧
        w.nextId ≠ id ∧
        w2.getImage id = none ∧
        w2.getImage w.nextId
          = some ⟨w.nextId, width, height, ⟨none⟩, true, [], i.imageType⟩ ∧
        GCommand.drawTriangles w.nextId [some i.image, none, none, none]
            (quadVerticesFromDstAndSrc 0 0 ((i.width : Rat)) ((i.height : Rat)) 0 0
              ((i.width : Rat)) ((i.height : Rat)) 1 1 1 1)
            quadIndices Blend.copy (goRect 0 0 i.width i.height)
            nearestFilterShaderId FillRule.fillAll ∈ w2.commands ∧
        GCommand.disposeImage i.image ∈ w2.commands) := by
  have hfind := find?_of_getImage_some hi
  have hidlt : id < w.nextId := hwf (id, i) (List.mem_of_find?_eq_some hfind)
  have hid_ne : id ≠ w.nextId := Nat.ne_of_lt hidlt
  have hnid_ne : w.nextId ≠ id := Ne.symm hid_ne
  constructor
  · intro hcov
    unfold World.extend
    simp only [hi]
    rw [if_pos hcov]
  · intro hncov
    set VS : List Rat := quadVerticesFromDstAndSrc 0 0 ((i.width : Rat))
      ((i.height : Rat)) 0 0 ((i.width : Rat)) ((i.height : Rat)) 1 1 1 1 with hVS
    set DR : Rectangle := goRect 0 0 i.width i.height with hDRdef
    set WA : World :=
      { driverInitialized := w.driverInitialized,
        images := w.images
          ++ [(w.nextId, ⟨w.nextId, width, height, ⟨none⟩, false, [], i.imageType⟩)],
        lastTarget := w.lastTarget,
        nextId := w.nextId + 1,
        commands := (w.commands
            ++ [GCommand.newImage width height (i.imageType == ImageType.screen)])
          ++ [clearCommand w.nextId (goRect 0 0 width height)] } with hWAdef
    have hA := newImage_run w width height i.imageType hd
    rw [← hWAdef] at hA
    set D : World := WA.drawTriangles w.nextId [some id, none, none, none] VS
      quadIndices Blend.copy DR [zeroRect, zeroRect, zeroRect, zeroRect]
      nearestFilterShaderId [] FillRule.fillAll with hDdef
    have hext : w.extend id width height = some (D.dispose id, w.nextId) := by
      rw [hDdef]
      unfold World.extend
      simp only [hi]
      rw [if_neg hncov]
      rw [hA]
      rfl
    have hAget : WA.getImage w.nextId
        = some (⟨w.nextId, width, height, ⟨none⟩, false, [], i.imageType⟩ : Image) := by
      rw [getImage_as_find?]
      simp only [hWAdef]
      rw [List.find?_append, find?_none_of_keys_lt w.images w.nextId hwf]
      rw [List.find?_cons_of_pos _ (by simp)]
      rfl
    have hscanA : (WA.makeStaleIfDependingOn w.nextId).getImage w.nextId
        = some (⟨w.nextId, width, height, ⟨none⟩, false, [], i.imageType⟩ : Image) :=
      (getImage_eq_of_images_eq (world_scan_images WA w.nextId) w.nextId).trans hAget
    have hv : ¬(VS.length = 0) := by
      rw [hVS]
      simp [quadVerticesFromDstAndSrc]
    obtain ⟨hDimg, hDcmd⟩ := drawTriangles_fields WA w.nextId
      ⟨w.nextId, width, height, ⟨none⟩, false, [], i.imageType⟩
      [some id, none, none, none] VS hv hscanA quadIndices Blend.copy DR
      [zeroRect, zeroRect, zeroRect, zeroRect] nearestFilterShaderId []
      FillRule.fillAll
    rw [← hDdef] at hDimg hDcmd
    rw [show WA.images = w.images
      ++ [(w.nextId, ⟨w.nextId, width, height, ⟨none⟩, false, [], i.imageType⟩)] from rfl,
      List.map_append, map_update_of_keys_lt w.images w.nextId _ hwf] at hDimg
    simp only [List.map_cons, List.map_nil, beq_self_eq_true, if_true] at hDimg
    have hDget : D.getImage id = some i := by
      rw [getImage_as_find?, hDimg, List.find?_append, hfind, Option.or_some]
      rfl
    have hS : ((WA.makeStaleIfDependingOn w.nextId).setImage w.nextId
        ((⟨w.nextId, width, height, ⟨none⟩, false, [], i.imageType⟩ : Image).makeStale DR)).getImage id
        = some i := by
      rw [getImage_setImage_ne _ _ _ _ hid_ne]
      rw [getImage_eq_of_images_eq (world_scan_images WA w.nextId) id]
      rw [getImage_as_find?]
      simp only [hWAdef]
      rw [List.find?_append, hfind, Option.or_some]
      rfl
    simp only [List.map_cons, List.map_nil, Option.some_bind, Option.none_bind,
      hS, Option.map_some'] at hDcmd
    obtain ⟨hBimg, hBcmd⟩ := dispose_fields D id i hDget
    have hsing1 : ([(w.nextId,
        (⟨w.nextId, width, height, ⟨none⟩, false, [], i.imageType⟩ : Image).makeStale DR)].filter
          (fun p => !(p.1 == id)))
        = [(w.nextId,
            (⟨w.nextId, width, height, ⟨none⟩, false, [], i.imageType⟩ : Image).makeStale DR)] := by
      simp [hnid_ne]
    have hsing2 : ([(w.nextId,
        (⟨w.nextId, width, height, ⟨none⟩, false, [], i.imageType⟩ : Image).makeStale DR)].find?
          (fun p => p.1 == id)) = none := by
      simp [hnid_ne]
    have hsing3 : ([(w.nextId,
        (⟨w.nextId, width, height, ⟨none⟩, false, [], i.imageType⟩ : Image).makeStale DR)].find?
          (fun p => p.1 == w.nextId))
        = some (w.nextId,
            (⟨w.nextId, width, height, ⟨none⟩, false, [], i.imageType⟩ : Image).makeStale DR) := by
      rw [List.find?_cons_of_pos _ (by simp)]
    refine ⟨D.dispose id, hext, hnid_ne, ?_, ?_, ?_, ?_⟩
    · rw [getImage_as_find?, hBimg, hDimg, List.filter_append, hsing1,
        List.find?_append, find?_filter_self, hsing2]
      rfl
    · rw [getImage_as_find?, hBimg, hDimg, List.filter_append, hsing1,
        List.find?_append, find?_filter_ne w.images id w.nextId hnid_ne,
        find?_none_of_keys_lt w.images w.nextId hwf, hsing3]
      rfl
    · rw [hBcmd, hDcmd]
      simp [List.mem_append]
    · rw [hBcmd, hDcmd]
      simp [List.mem_append]

/-- Claim C8 witness: in a world with one registered 2×2 Regular image,
extending to 2×2 is the identity, and extending to 4×4 produces a new
registered 4×4 image while the original is unregistered. -/
theorem C8_extend_noop_or_replace_witness :
    ((⟨true, [(0, ⟨0, 2, 2, ⟨none⟩, false, [], ImageType.regular⟩)], none, 1, []⟩ : World).extend
        0 2 2
      = some (⟨true, [(0, ⟨0, 2, 2, ⟨none⟩, false, [], ImageType.regular⟩)], none, 1, []⟩, 0)) ∧
    (∃ w2, (⟨true, [(0, ⟨0, 2, 2, ⟨none⟩, false, [], ImageType.regular⟩)], none, 1, []⟩ : World).extend
          0 4 4 = some (w2, 1) ∧
        (1 : Nat) ≠ 0 ∧
        w2.getImage 0 = none ∧
        w2.getImage 1 = some ⟨1, 4, 4, ⟨none⟩, true, [], ImageType.regular⟩ ∧
        GCommand.drawTriangles 1 [some 0, none, none, none]
            (quadVerticesFromDstAndSrc 0 0 ((2 : Int) : Rat) ((2 : Int) : Rat) 0 0
              ((2 : Int) : Rat) ((2 : Int) : Rat) 1 1 1 1)
            quadIndices Blend.copy (goRect 0 0 2 2)
            nearestFilterShaderId FillRule.fillAll ∈ w2.commands ∧
        GCommand.disposeImage 0 ∈ w2.commands) := by
  have h := C8_extend_noop_or_replace
    ⟨true, [(0, ⟨0, 2, 2, ⟨none⟩, false, [], ImageType.regular⟩)], none, 1, []⟩
    0 2 2 ⟨0, 2, 2, ⟨none⟩, false, [], ImageType.regular⟩ (by rfl) (by rfl)
    (by intro p hp; simp at hp; rw [hp]; decide)
  have h2 := C8_extend_noop_or_replace
    ⟨true, [(0, ⟨0, 2, 2, ⟨none⟩, false, [], ImageType.regular⟩)], none, 1, []⟩
    0 4 4 ⟨0, 2, 2, ⟨none⟩, false, [], ImageType.regular⟩ (by rfl) (by rfl)
    (by intro p hp; simp at hp; rw [hp]; decide)
  exact ⟨h.1 (by constructor <;> decide), h2.2 (by decide)⟩

/-- Claim C7: `DrawTriangles` with an empty vertex list is a complete
no-op: the whole world state — the image (stale flag, staleRegions), the
registry (`lastTarget` memo, all other images) and the forwarded command
stream — is unchanged, for every argument combination. -/
theorem C7_drawTriangles_empty_noop (w : World) (id : Nat)
    (srcs : List (Option Nat)) (indices : List Nat) (blend : Blend)
    (dstRegion : Rectangle) (srcRegions : List Rectangle) (shader : Nat)
    (uniforms : List Nat) (fillRule : FillRule) :
    w.drawTriangles id srcs [] indices blend dstRegion srcRegions shader
      uniforms fillRule = w := rfl

end Restorable

namespace VectorPath

theorem quadToD_fst (close : CloseTest) (p : VPath) (x1 y1 x2 y2 : Rat)
    (level : Int) :
    (VPath.quadToD close p x1 y1 x2 y2 level).1
      = VPath.quadTo close p x1 y1 x2 y2 level := by
  induction p, x1, y1, x2, y2, level using VPath.quadToD.induct close with
  | case1 p x1 y1 x2 y2 level h =>
    rw [VPath.quadToD, VPath.quadTo]
    simp [h]
  | case2 p x1 y1 x2 y2 level h hc =>
    rw [VPath.quadToD, VPath.quadTo]
    simp [h, hc]
  | case3 p x1 y1 x2 y2 level h hc ih1 ih2 =>
    rw [VPath.quadToD, VPath.quadTo]
    simp only [if_neg h, if_neg hc]
    rw [ih2, ih1]

theorem cubicToD_fst (close : CloseTest) (p : VPath) (x1 y1 x2 y2 x3 y3 : Rat)
    (level : Int) :
    (VPath.cubicToD close p x1 y1 x2 y2 x3 y3 level).1
      = VPath.cubicTo close p x1 y1 x2 y2 x3 y3 level := by
  induction p, x1, y1, x2, y2, x3, y3, level using VPath.cubicToD.induct close with
  | case1 p x1 y1 x2 y2 x3 y3 level h =>
    rw [VPath.cubicToD, VPath.cubicTo]
    simp [h]
  | case2 p x1 y1 x2 y2 x3 y3 level h hc =>
    rw [VPath.cubicToD, VPath.cubicTo]
    simp [h, hc]
  | case3 p x1 y1 x2 y2 x3 y3 level h hc ih1 ih2 =>
    rw [VPath.cubicToD, VPath.cubicTo]
    simp only [if_neg h, if_neg hc]
    rw [ih2, ih1]

theorem quadToD_depth_le (close : CloseTest) (p : VPath) (x1 y1 x2 y2 : Rat)
    (level : Int) :
    (VPath.quadToD close p x1 y1 x2 y2 level).2 ≤ Nat.max 1 (12 - level).toNat := by
  induction p, x1, y1, x2, y2, level using VPath.quadToD.induct close with
  | case1 p x1 y1 x2 y2 level h =>
    rw [VPath.quadToD]
    simp [h]
  | case2 p x1 y1 x2 y2 level h hc =>
    rw [VPath.quadToD]
    simp [h, hc]
  | case3 p x1 y1 x2 y2 level h hc ih1 ih2 =>
    rw [VPath.quadToD]
    simp only [if_neg h, if_neg hc]
    have hb1 : Nat.max 1 (12 - (level + 1)).toNat = (12 - (level + 1)).toNat :=
      Nat.max_eq_right (by omega)
    rw [hb1] at ih1 ih2
    refine le_trans (Nat.add_le_add_left (Nat.max_le.mpr ⟨ih1, ih2⟩) 1) ?_
    have hb2 : Nat.max 1 (12 - level).toNat = (12 - level).toNat :=
      Nat.max_eq_right (by omega)
    rw [hb2]
    omega

theorem cubicToD_depth_le (close : CloseTest) (p : VPath) (x1 y1 x2 y2 x3 y3 : Rat)
    (level : Int) :
    (VPath.cubicToD close p x1 y1 x2 y2 x3 y3 level).2
      ≤ Nat.max 1 (12 - level).toNat := by
  induction p, x1, y1, x2, y2, x3, y3, level using VPath.cubicToD.induct close with
  | case1 p x1 y1 x2 y2 x3 y3 level h =>
    rw [VPath.cubicToD]
    simp [h]
  | case2 p x1 y1 x2 y2 x3 y3 level h hc =>
    rw [VPath.cubicToD]
    simp [h, hc]
  | case3 p x1 y1 x2 y2 x3 y3 level h hc ih1 ih2 =>
    rw [VPath.cubicToD]
    simp only [if_neg h, if_neg hc]
    have hb1 : Nat.max 1 (12 - (level + 1)).toNat = (12 - (level + 1)).toNat :=
      Nat.max_eq_right (by omega)
    rw [hb1] at ih1 ih2
    refine le_trans (Nat.add_le_add_left (Nat.max_le.mpr ⟨ih1, ih2⟩) 1) ?_
    have hb2 : Nat.max 1 (12 - level).toNat = (12 - level).toNat :=
      Nat.max_eq_right (by omega)
    rw [hb2]
    omega

theorem quadTo_deep (close : CloseTest) (p : VPath) (x1 y1 x2 y2 : Rat)
    (level : Int) (h : level > 10) :
    VPath.quadTo close p x1 y1 x2 y2 level = p := by
  rw [VPath.quadTo]
  simp [h]

theorem cubicTo_deep (close : CloseTest) (p : VPath) (x1 y1 x2 y2 x3 y3 : Rat)
    (level : Int) (h : level > 10) :
    VPath.cubicTo close p x1 y1 x2 y2 x3 y3 level = p := by
  rw [VPath.cubicTo]
  simp [h]

/-- Claim C10: the Bézier flattening recursions `quadTo` and `cubicTo` are
total (they are definable by the decreasing measure `(11 - level).toNat`)
and, for an arbitrary closeness test: a call with `level > 10` returns
immediately with the path unchanged, and the nesting of recursive call
frames of any call at `level` is at most `max 1 (12 - level)` (so at most 12
frames from the public entry at level 0 — the explicit cap of 10
subdivision levels, independent of the closeness test). The instrumented
depth functions compute the same path as the source functions. -/
theorem C10_flatten_depth_capped :
    (∀ (close : CloseTest) (p : VPath) (x1 y1 x2 y2 : Rat) (level : Int),
        (VPath.quadToD close p x1 y1 x2 y2 level).1
          = VPath.quadTo close p x1 y1 x2 y2 level) ∧
    (∀ (close : CloseTest) (p : VPath) (x1 y1 x2 y2 x3 y3 : Rat) (level : Int),
        (VPath.cubicToD close p x1 y1 x2 y2 x3 y3 level).1
          = VPath.cubicTo close p x1 y1 x2 y2 x3 y3 level) ∧
    (∀ (close : CloseTest) (p : VPath) (x1 y1 x2 y2 : Rat) (level : Int),
        level > 10 → VPath.quadTo close p x1 y1 x2 y2 level = p) ∧
    (∀ (close : CloseTest) (p : VPath) (x1 y1 x2 y2 x3 y3 : Rat) (level : Int),
        level > 10 → VPath.cubicTo close p x1 y1 x2 y2 x3 y3 level = p) ∧
    (∀ (close : CloseTest) (p : VPath) (x1 y1 x2 y2 : Rat) (level : Int),
        (VPath.quadToD close p x1 y1 x2 y2 level).2 ≤ Nat.max 1 (12 - level).toNat) ∧
    (∀ (close : CloseTest) (p : VPath) (x1 y1 x2 y2 x3 y3 : Rat) (level : Int),
        (VPath.cubicToD close p x1 y1 x2 y2 x3 y3 level).2
          ≤ Nat.max 1 (12 - level).toNat) :=
  ⟨quadToD_fst, cubicToD_fst, quadTo_deep, cubicTo_deep,
   quadToD_depth_le, cubicToD_depth_le⟩

/-- Claim C10 witness: a call above the cap returns the path unchanged, and
the frame count of a top-level call is at most 12, at concrete inputs. -/
theorem C10_flatten_depth_capped_witness :
    VPath.quadTo (fun _ _ _ _ _ _ => false) ⟨[], ⟨0, 0⟩⟩ 0 0 1 1 11 = ⟨[], ⟨0, 0⟩⟩ ∧
    VPath.cubicTo (fun _ _ _ _ _ _ => false) ⟨[], ⟨0, 0⟩⟩ 0 0 1 1 2 2 11 = ⟨[], ⟨0, 0⟩⟩ ∧
    (VPath.quadToD (fun _ _ _ _ _ _ => false) ⟨[], ⟨0, 0⟩⟩ 0 0 1 1 0).2
      ≤ Nat.max 1 (12 - (0 : Int)).toNat :=
  ⟨C10_flatten_depth_capped.2.2.1 _ _ _ _ _ _ _ (by decide),
   C10_flatten_depth_capped.2.2.2.1 _ _ _ _ _ _ _ _ _ (by decide),
   C10_flatten_depth_capped.2.2.2.2.1 _ _ _ _ _ _ _⟩

end VectorPath
